import Mathlib

/-!
Verification of the allow-listed forwarding proxy (the `/proxy` route of the
Express server in this repository).  The handler is embedded shallowly:

* `QueryVal` models the possible shapes of an Express query-parameter value
  (string, array of strings, nested object); `jsMissingUrl` is the test
  `!target || typeof target !== 'string'` from the source, including JS
  truthiness (the empty string is falsy, arrays and objects are truthy).
* `newURL` models the fragment of the WHATWG `new URL(target)` constructor the
  handler relies on: an absolute URL with a scheme, an optional authority
  introduced by `//` holding userinfo (split at the last `@`), a host and an
  optional decimal port; for the special schemes (http, https, ws, wss, ftp,
  file) the host is ASCII-lowercased, otherwise it is kept opaque.  The model
  is restricted to ASCII hosts without percent-encoding, IPv4/IPv6 syntax or
  IDNA; parse failure (`none`) models the constructor throwing.
* The upstream fetch is an oracle `Fetcher` mapping a URL string and a
  redirect mode to either a response (status, headers, the redirect chain the
  runtime followed internally, and a body whose absence models
  `arrayBuffer()` rejecting) or a network error.
* `setHeader` models Node's `res.setHeader` (case-insensitive replacement);
  `copyUpstreamHeaders` is the `upstream.headers.forEach` loop that skips
  `x-frame-options` and `content-security-policy`.
* `proxyHandler` is the route handler itself.  Besides status, headers and
  body, the result records which outbound fetches were issued, which
  hostnames were tested against the allow-list, and whether the catch block
  logged an error; these trace fields instrument the side effects the claims
  speak about.  The handler is a total function, so no exception escapes the
  request boundary, mirroring the try/catch that surrounds the whole body.
-/

namespace Sovap

/-- A value of an Express query parameter: a string, an array, or an object. -/
inductive QueryVal where
  | str (s : String)
  | strList (l : List String)
  | obj
deriving DecidableEq

/-- JS truthiness of a query value: the empty string is falsy, every array and
object is truthy. -/
def QueryVal.isTruthy : QueryVal → Bool
  | .str s => !(s == "")
  | .strList _ => true
  | .obj => true

/-- Whether `typeof target === 'string'` holds. -/
def QueryVal.isStringVal : QueryVal → Bool
  | .str _ => true
  | .strList _ => false
  | .obj => false

/-- The test `!target || typeof target !== 'string'` of the source, with
`none` standing for an absent parameter (`undefined`). -/
def jsMissingUrl : Option QueryVal → Bool
  | none => true
  | some v => !(v.isTruthy) || !(v.isStringVal)

/-- The static allow-list of the source (`ALLOWLIST`). -/
def ALLOWLIST : List String :=
  ["testphp.vulnweb.com", "juice-shop.herokuapp.com", "juice-shop.github.io", "badssl.com"]

/-- ASCII lowercasing of a character list, as both `String.toLowerCase` in JS
and WHATWG domain lowercasing act on ASCII letters. -/
def lowerChars (l : List Char) : List Char :=
  l.map Char.toLower

/-- ASCII lowercasing of a string (models `key.toLowerCase()`). -/
def lowerStr (s : String) : String :=
  String.mk (lowerChars s.toList)

/-- Split a list at the first character satisfying `p`; the delimiter stays at
the head of the second component. -/
def takeUntil (p : Char → Bool) : List Char → List Char × List Char
  | [] => ([], [])
  | c :: cs =>
    if p c then ([], c :: cs)
    else
      let r := takeUntil p cs
      (c :: r.1, r.2)

/-- Authority/path delimiters of the URL grammar. -/
def isDelim (c : Char) : Bool :=
  c.toNat == 47 || c.toNat == 63 || c.toNat == 35

/-- The colon character, by code point. -/
def isColon (c : Char) : Bool :=
  c.toNat == 58

/-- The at-sign character, by code point. -/
def isAt (c : Char) : Bool :=
  c.toNat == 64

/-- ASCII letter, by code point. -/
def isAsciiAlphaCode (n : Nat) : Bool :=
  (65 ≤ n && n ≤ 90) || (97 ≤ n && n ≤ 122)

/-- ASCII digit, by code point. -/
def isDigitCode (n : Nat) : Bool :=
  48 ≤ n && n ≤ 57

/-- Characters allowed after the first one in a URL scheme. -/
def isSchemeChar (c : Char) : Bool :=
  isAsciiAlphaCode c.toNat || isDigitCode c.toNat ||
    c.toNat == 43 || c.toNat == 45 || c.toNat == 46

/-- A valid URL scheme: nonempty, starts with an ASCII letter. -/
def validScheme (l : List Char) : Bool :=
  match l with
  | [] => false
  | c :: cs => isAsciiAlphaCode c.toNat && cs.all isSchemeChar

/-- The special schemes of the WHATWG URL standard. -/
def specialSchemes : List String :=
  ["http", "https", "ws", "wss", "ftp", "file"]

/-- Forbidden host code points (WHATWG): NUL, TAB, LF, CR, space, `#`, `%`,
`/`, `:`, `<`, `>`, `?`, `@`, `[`, `\`, `]`, `^`, `|`. -/
def forbiddenHostCodes : List Nat :=
  [0, 9, 10, 13, 32, 35, 37, 47, 58, 60, 62, 63, 64, 91, 92, 93, 94, 124]

/-- A character the modelled host parser accepts: ASCII and not forbidden. -/
def validHostChar (c : Char) : Bool :=
  decide (c.toNat < 128) && !(forbiddenHostCodes.contains c.toNat)

/-- Value of a nonempty digit string. -/
def digitsToNat (l : List Char) : Nat :=
  l.foldl (fun acc c => acc * 10 + (c.toNat - 48)) 0

/-- The record `new URL(...)` produces, restricted to the components the
proxy and the claims touch. -/
structure URLObj where
  scheme : String
  username : String
  hostname : String
  port : Option Nat
  pathAndQuery : String
deriving DecidableEq

/-- Port parsing: absent or empty port is `null`; digits up to 65535 parse;
anything else is a failure of the whole URL parse. -/
def parsePort (portRest : List Char) : Option (Option Nat) :=
  match portRest with
  | [] => some none
  | _ :: pr =>
    if pr.isEmpty then some none
    else if pr.all (fun c => isDigitCode c.toNat) && decide (digitsToNat pr ≤ 65535) then
      some (some (digitsToNat pr))
    else none

/-- Split an authority into userinfo and host-port at the LAST at-sign,
as the WHATWG host parser does (userinfo may itself contain at-signs). -/
def splitUserinfo (auth : List Char) : List Char × List Char :=
  match takeUntil isAt auth.reverse with
  | (revHostport, []) => ([], revHostport.reverse)
  | (revHostport, _ :: revUserinfo) => (revUserinfo.reverse, revHostport.reverse)

/-- Parse the part after `scheme://`: authority up to the first `/`, `?` or
`#`, then userinfo, host and port.  Hosts of special schemes must be nonempty
and are lowercased; other hosts are opaque. -/
def parseAuthority (scheme : String) (rest2 : List Char) : Option URLObj :=
  let ap := takeUntil isDelim rest2
  let uh := splitUserinfo ap.1
  let hp := takeUntil isColon uh.2
  match parsePort hp.2 with
  | none => none
  | some port =>
    if hp.1.all validHostChar && !(specialSchemes.contains scheme && hp.1.isEmpty) then
      some { scheme := scheme,
             username := String.mk uh.1,
             hostname := String.mk (if specialSchemes.contains scheme then lowerChars hp.1 else hp.1),
             port := port,
             pathAndQuery := String.mk ap.2 }
    else none

/-- A URL whose scheme is not followed by `//`: outside the modelled fragment
for special schemes, an opaque path with an empty hostname otherwise. -/
def opaquePath (schemeChars rest : List Char) : Option URLObj :=
  if specialSchemes.contains (String.mk (lowerChars schemeChars)) then none
  else some { scheme := String.mk (lowerChars schemeChars), username := "",
              hostname := "", port := none, pathAndQuery := String.mk rest }

/-- Parse what follows the scheme colon: `//` introduces an authority; without
`//` the URL falls to `opaquePath`. -/
def parseAfterScheme (schemeChars afterColon : List Char) : Option URLObj :=
  if validScheme schemeChars then
    match afterColon with
    | a :: b :: rest2 =>
      if a.toNat == 47 && b.toNat == 47 then
        parseAuthority (String.mk (lowerChars schemeChars)) rest2
      else opaquePath schemeChars (a :: b :: rest2)
    | rest => opaquePath schemeChars rest
  else none

/-- The modelled `new URL` constructor on a character list: everything before
the first colon is the scheme (lowercased). No colon, or an invalid scheme, is
a parse failure. -/
def newURLChars (l : List Char) : Option URLObj :=
  match takeUntil isColon l with
  | (_, []) => none
  | (schemeChars, _ :: afterColon) => parseAfterScheme schemeChars afterColon

/-- The modelled `new URL` constructor; `none` models a thrown `TypeError`. -/
def newURL (s : String) : Option URLObj :=
  newURLChars s.toList

/-- The `redirect` option of `fetch`. -/
inductive RedirectMode where
  | follow
  | error
  | manual
deriving DecidableEq

/-- An upstream response: status, headers as delivered by the `Headers`
object, the chain of URLs the runtime visited while following redirects
internally, and the body (`none` models `arrayBuffer()` rejecting). -/
structure UpstreamResponse where
  status : Nat
  headers : List (String × String)
  redirectChain : List String
  body : Option String
deriving DecidableEq

/-- Outcome of `fetch`: a response, or a rejected promise. -/
inductive FetchOutcome where
  | ok (r : UpstreamResponse)
  | networkError
deriving DecidableEq

/-- The environment's fetch function. -/
abbrev Fetcher := String → RedirectMode → FetchOutcome

/-- Node's `res.setHeader`: replaces any header with the same name,
case-insensitively. -/
def setHeader (hs : List (String × String)) (k v : String) : List (String × String) :=
  hs.filter (fun p => !(lowerStr p.1 == lowerStr k)) ++ [(k, v)]

/-- The two header names the copy loop strips. -/
def FRAME_STRIP : List String :=
  ["x-frame-options", "content-security-policy"]

/-- The `upstream.headers.forEach` loop: copy every header except the two
frame-blocking ones. -/
def copyUpstreamHeaders (res : List (String × String)) (upstream : List (String × String)) :
    List (String × String) :=
  upstream.foldl
    (fun acc kv =>
      if FRAME_STRIP.contains (lowerStr kv.1) then acc
      else setHeader acc kv.1 kv.2)
    res

/-- A single quote character, used inside the CSP override value. -/
def SQ : String :=
  String.mk [Char.ofNat 39]

/-- The forced Content-Security-Policy value: frame-ancestors self *
(with the word self single-quoted, as in the source). -/
def cspOverrideValue : String :=
  "frame-ancestors " ++ SQ ++ "self" ++ SQ ++ " *"

/-- What the handler sends back, together with the side-effect traces the
claims are about: the outbound fetches issued, the hostnames tested against
the allow-list, and whether the catch block logged an error. -/
structure HandlerResult where
  status : Nat
  headers : List (String × String)
  body : String
  fetches : List (String × RedirectMode)
  hostChecks : List String
  loggedError : Bool
deriving DecidableEq

/-- The `/proxy` route handler.  Mirrors the source line by line: the
missing-parameter test, `new URL` (whose failure falls into the catch block,
hence 500), the allow-list test on `urlObj.hostname`, the single
redirect-following fetch of the raw `target`, the header copy loop, the two
header overrides, the body read, and the catch block that turns any raised
error into a logged 500 with body Proxy error. -/
def proxyHandler (urlParam : Option QueryVal) (f : Fetcher) : HandlerResult :=
  if jsMissingUrl urlParam then
    { status := 400, headers := [], body := "Missing url param",
      fetches := [], hostChecks := [], loggedError := false }
  else
    match urlParam with
    | some (.str s) =>
      match newURL s with
      | none =>
        { status := 500, headers := [], body := "Proxy error",
          fetches := [], hostChecks := [], loggedError := true }
      | some urlObj =>
        if !(ALLOWLIST.contains urlObj.hostname) then
          { status := 403, headers := [], body := "Domain not allowed",
            fetches := [], hostChecks := [urlObj.hostname], loggedError := false }
        else
          match f s RedirectMode.follow with
          | .networkError =>
            { status := 500, headers := [], body := "Proxy error",
              fetches := [(s, RedirectMode.follow)], hostChecks := [urlObj.hostname],
              loggedError := true }
          | .ok up =>
            let hs1 := copyUpstreamHeaders [] up.headers
            let hs2 := setHeader hs1 "X-Frame-Options" ""
            let hs3 := setHeader hs2 "Content-Security-Policy" cspOverrideValue
            match up.body with
            | none =>
              { status := 500, headers := hs3, body := "Proxy error",
                fetches := [(s, RedirectMode.follow)], hostChecks := [urlObj.hostname],
                loggedError := true }
            | some b =>
              { status := up.status, headers := hs3, body := b,
                fetches := [(s, RedirectMode.follow)], hostChecks := [urlObj.hostname],
                loggedError := false }
    | _ =>
      { status := 400, headers := [], body := "Missing url param",
        fetches := [], hostChecks := [], loggedError := false }

/-- A fetch environment where every fetch fails; used to instantiate
universally quantified fetchers in concrete evaluations. -/
def fetchNone : Fetcher :=
  fun _ _ => FetchOutcome.networkError

/-! ### Splitting lemmas for `takeUntil` -/

theorem takeUntil_neg {p : Char → Bool} {c : Char} (cs : List Char) (h : p c = false) :
    takeUntil p (c :: cs) = (c :: (takeUntil p cs).1, (takeUntil p cs).2) := by
  simp [takeUntil, h]

theorem takeUntil_pos {p : Char → Bool} {c : Char} (cs : List Char) (h : p c = true) :
    takeUntil p (c :: cs) = ([], c :: cs) := by
  simp [takeUntil, h]

theorem takeUntil_append {p : Char → Bool} {l : List Char} (r : List Char)
    (h : ∀ c ∈ l, p c = false) :
    takeUntil p (l ++ r) = (l ++ (takeUntil p r).1, (takeUntil p r).2) := by
  induction l with
  | nil => simp
  | cons c cs ih =>
    have hc : p c = false := h c (List.mem_cons_self c cs)
    have ih2 := ih (fun d hd => h d (List.mem_cons_of_mem c hd))
    simp [takeUntil_neg _ hc, ih2]

theorem takeUntil_stop {p : Char → Bool} {r : List Char}
    (h : r = [] ∨ ∃ d t, r = d :: t ∧ p d = true) :
    takeUntil p r = ([], r) := by
  rcases h with h | ⟨d, t, rfl, hd⟩
  · simp [h, takeUntil]
  · exact takeUntil_pos t hd

theorem takeUntil_exact {p : Char → Bool} {l r : List Char}
    (h1 : ∀ c ∈ l, p c = false)
    (h2 : r = [] ∨ ∃ d t, r = d :: t ∧ p d = true) :
    takeUntil p (l ++ r) = (l, r) := by
  rw [takeUntil_append r h1, takeUntil_stop h2]
  simp

/-! ### Character-class facts -/

theorem isDigit_not_special {c : Char} (h : isDigitCode c.toNat = true) :
    isDelim c = false ∧ isColon c = false ∧ isAt c = false := by
  simp only [isDigitCode, Bool.and_eq_true, decide_eq_true_eq] at h
  simp only [isDelim, isColon, isAt, Bool.or_eq_false_iff, beq_eq_false_iff_ne, ne_eq]
  omega

theorem isSchemeChar_not_colon {c : Char} (h : isSchemeChar c = true) :
    isColon c = false := by
  simp only [isSchemeChar, isAsciiAlphaCode, isDigitCode, Bool.or_eq_true,
    Bool.and_eq_true, decide_eq_true_eq, beq_iff_eq] at h
  simp only [isColon, beq_eq_false_iff_ne, ne_eq]
  omega

theorem alphaCode_not_colon {c : Char} (h : isAsciiAlphaCode c.toNat = true) :
    isColon c = false := by
  simp only [isAsciiAlphaCode, Bool.or_eq_true, Bool.and_eq_true, decide_eq_true_eq] at h
  simp only [isColon, beq_eq_false_iff_ne, ne_eq]
  omega

theorem validScheme_no_colon {l : List Char} (h : validScheme l = true) :
    ∀ c ∈ l, isColon c = false := by
  match l with
  | [] => simp [validScheme] at h
  | c :: cs =>
    simp only [validScheme, Bool.and_eq_true, List.all_eq_true] at h
    intro d hd
    rcases List.mem_cons.mp hd with rfl | hd2
    · exact alphaCode_not_colon h.1
    · exact isSchemeChar_not_colon (h.2 d hd2)

theorem upperRange_hostChar {c : Char} (h1 : 65 ≤ c.toNat) (h2 : c.toNat ≤ 90) :
    validHostChar c = true ∧ isDelim c = false ∧ isColon c = false ∧ isAt c = false := by
  refine ⟨?_, ?_, ?_, ?_⟩
  · simp only [validHostChar, forbiddenHostCodes, Bool.and_eq_true, decide_eq_true_eq,
      Bool.not_eq_true', List.contains_cons, List.contains_nil, Bool.or_eq_false_iff,
      beq_eq_false_iff_ne, ne_eq, and_true]
    omega
  · simp only [isDelim, Bool.or_eq_false_iff, beq_eq_false_iff_ne, ne_eq]; omega
  · simp only [isColon, beq_eq_false_iff_ne, ne_eq]; omega
  · simp only [isAt, beq_eq_false_iff_ne, ne_eq]; omega

theorem toLower_cases (c : Char) :
    (65 ≤ c.toNat ∧ c.toNat ≤ 90) ∨ Char.toLower c = c := by
  by_cases h : 65 ≤ c.toNat ∧ c.toNat ≤ 90
  · exact Or.inl h
  · right
    unfold Char.toLower
    rw [if_neg]
    exact fun hc => h ⟨hc.1, hc.2⟩

/-! ### Computing `newURLChars` on structured inputs -/

/-- Shape hypothesis bundle for a host character: acceptable to the host
parser and free of every structural delimiter. -/
def plainHostChar (c : Char) : Prop :=
  validHostChar c = true ∧ isDelim c = false ∧ isColon c = false ∧ isAt c = false

instance (c : Char) : Decidable (plainHostChar c) := by
  unfold plainHostChar
  infer_instance

theorem mk_toList (s : String) : String.mk s.toList = s := by
  obtain ⟨d⟩ := s
  rfl

theorem newURLChars_build
    (sc ui hC ps pc : List Char)
    (hsc : validScheme sc = true)
    (hui : ∀ c ∈ ui, isDelim c = false)
    (hne : hC ≠ [])
    (hhc : ∀ c ∈ hC, plainHostChar c)
    (hpsne : ps ≠ [])
    (hps : ∀ c ∈ ps, isDigitCode c.toNat = true)
    (hport : digitsToNat ps ≤ 65535)
    (hpc : pc = [] ∨ ∃ d t, pc = d :: t ∧ isDelim d = true) :
    newURLChars (sc ++ ':' :: '/' :: '/' :: (ui ++ '@' :: (hC ++ ':' :: (ps ++ pc)))) =
      some { scheme := String.mk (lowerChars sc),
             username := String.mk ui,
             hostname := String.mk
               (if specialSchemes.contains (String.mk (lowerChars sc)) then lowerChars hC else hC),
             port := some (digitsToNat ps),
             pathAndQuery := String.mk pc } := by
  have hColonTrue : isColon (Char.ofNat 58) = true := by decide
  have hAtTrue : isAt (Char.ofNat 64) = true := by decide
  -- scheme split
  have t1 : takeUntil isColon (sc ++ ':' :: '/' :: '/' :: (ui ++ '@' :: (hC ++ ':' :: (ps ++ pc))))
      = (sc, ':' :: '/' :: '/' :: (ui ++ '@' :: (hC ++ ':' :: (ps ++ pc)))) :=
    takeUntil_exact (validScheme_no_colon hsc) (Or.inr ⟨_, _, rfl, hColonTrue⟩)
  -- authority split
  have hpre : ∀ c ∈ ui ++ '@' :: (hC ++ ':' :: ps), isDelim c = false := by
    intro c hc
    rcases List.mem_append.mp hc with h1 | h1
    · exact hui c h1
    · rcases List.mem_cons.mp h1 with rfl | h2
      · decide
      · rcases List.mem_append.mp h2 with h3 | h3
        · exact (hhc c h3).2.1
        · rcases List.mem_cons.mp h3 with rfl | h4
          · decide
          · exact (isDigit_not_special (hps c h4)).1
  have hR : ui ++ '@' :: (hC ++ ':' :: (ps ++ pc)) = (ui ++ '@' :: (hC ++ ':' :: ps)) ++ pc := by
    simp [List.append_assoc]
  have t2 : takeUntil isDelim (ui ++ '@' :: (hC ++ ':' :: (ps ++ pc)))
      = (ui ++ '@' :: (hC ++ ':' :: ps), pc) := by
    rw [hR]
    exact takeUntil_exact hpre hpc
  -- userinfo split at the last at-sign
  have hpre2 : ∀ c ∈ ps.reverse ++ ':' :: hC.reverse, isAt c = false := by
    intro c hc
    rcases List.mem_append.mp hc with h1 | h1
    · exact (isDigit_not_special (hps c (List.mem_reverse.mp h1))).2.2
    · rcases List.mem_cons.mp h1 with rfl | h2
      · decide
      · exact (hhc c (List.mem_reverse.mp h2)).2.2.2
  have hRev : (ui ++ '@' :: (hC ++ ':' :: ps)).reverse
      = (ps.reverse ++ ':' :: hC.reverse) ++ '@' :: ui.reverse := by
    simp [List.reverse_append, List.append_assoc]
  have t3 : takeUntil isAt ((ui ++ '@' :: (hC ++ ':' :: ps)).reverse)
      = (ps.reverse ++ ':' :: hC.reverse, '@' :: ui.reverse) := by
    rw [hRev]
    exact takeUntil_exact hpre2 (Or.inr ⟨_, _, rfl, hAtTrue⟩)
  have t4 : splitUserinfo (ui ++ '@' :: (hC ++ ':' :: ps)) = (ui, hC ++ ':' :: ps) := by
    unfold splitUserinfo
    rw [t3]
    simp [List.reverse_append]
  -- host/port split
  have t5 : takeUntil isColon (hC ++ ':' :: ps) = (hC, ':' :: ps) :=
    takeUntil_exact (fun c hc => (hhc c hc).2.2.1) (Or.inr ⟨_, _, rfl, hColonTrue⟩)
  have hie : ps.isEmpty = false := by
    cases ps with
    | nil => exact absurd rfl hpsne
    | cons a as => rfl
  have hall : (ps.all fun c => isDigitCode c.toNat) = true := List.all_eq_true.mpr hps
  have t6 : parsePort (':' :: ps) = some (some (digitsToNat ps)) := by
    show (if ps.isEmpty = true then some none
      else if ((ps.all fun c => isDigitCode c.toNat) && decide (digitsToNat ps ≤ 65535)) = true then
        some (some (digitsToNat ps))
      else none) = some (some (digitsToNat ps))
    simp [hie, hall, hport]
  have hieh : hC.isEmpty = false := by
    cases hC with
    | nil => exact absurd rfl hne
    | cons a as => rfl
  have t7 : hC.all validHostChar = true :=
    List.all_eq_true.mpr (fun c hc => (hhc c hc).1)
  -- assemble
  unfold newURLChars
  rw [t1]
  show parseAfterScheme sc ('/' :: '/' :: (ui ++ '@' :: (hC ++ ':' :: (ps ++ pc)))) = _
  unfold parseAfterScheme
  rw [hsc]
  simp only [if_true]
  show (if ('/').toNat == 47 && ('/').toNat == 47 then
      parseAuthority (String.mk (lowerChars sc)) (ui ++ '@' :: (hC ++ ':' :: (ps ++ pc)))
    else opaquePath sc ('/' :: '/' :: (ui ++ '@' :: (hC ++ ':' :: (ps ++ pc))))) = _
  rw [if_pos (by decide)]
  simp only [parseAuthority, t2, t4, t5, t6, t7, hieh]
  simp

theorem newURLChars_build_noauthinfo
    (sc hC pc : List Char)
    (hsc : validScheme sc = true)
    (hne : hC ≠ [])
    (hhc : ∀ c ∈ hC, plainHostChar c)
    (hpc : pc = [] ∨ ∃ d t, pc = d :: t ∧ isDelim d = true) :
    newURLChars (sc ++ ':' :: '/' :: '/' :: (hC ++ pc)) =
      some { scheme := String.mk (lowerChars sc),
             username := "",
             hostname := String.mk
               (if specialSchemes.contains (String.mk (lowerChars sc)) then lowerChars hC else hC),
             port := none,
             pathAndQuery := String.mk pc } := by
  have hColonTrue : isColon (Char.ofNat 58) = true := by decide
  have t1 : takeUntil isColon (sc ++ ':' :: '/' :: '/' :: (hC ++ pc))
      = (sc, ':' :: '/' :: '/' :: (hC ++ pc)) :=
    takeUntil_exact (validScheme_no_colon hsc) (Or.inr ⟨_, _, rfl, hColonTrue⟩)
  have t2 : takeUntil isDelim (hC ++ pc) = (hC, pc) :=
    takeUntil_exact (fun c hc => (hhc c hc).2.1) hpc
  have t3 : takeUntil isAt hC.reverse = (hC.reverse, []) := by
    have h0 : takeUntil isAt (hC.reverse ++ ([] : List Char)) = (hC.reverse, ([] : List Char)) :=
      takeUntil_exact (fun c hc => (hhc c (List.mem_reverse.mp hc)).2.2.2) (Or.inl rfl)
    simpa using h0
  have t4 : splitUserinfo hC = ([], hC) := by
    unfold splitUserinfo
    rw [t3]
    simp
  have t5 : takeUntil isColon hC = (hC, []) := by
    have h0 : takeUntil isColon (hC ++ ([] : List Char)) = (hC, ([] : List Char)) :=
      takeUntil_exact (fun c hc => (hhc c hc).2.2.1) (Or.inl rfl)
    simpa using h0
  have hieh : hC.isEmpty = false := by
    cases hC with
    | nil => exact absurd rfl hne
    | cons a as => rfl
  have t7 : hC.all validHostChar = true :=
    List.all_eq_true.mpr (fun c hc => (hhc c hc).1)
  unfold newURLChars
  rw [t1]
  show parseAfterScheme sc ('/' :: '/' :: (hC ++ pc)) = _
  unfold parseAfterScheme
  rw [hsc]
  simp only [if_true]
  show (if ('/').toNat == 47 && ('/').toNat == 47 then
      parseAuthority (String.mk (lowerChars sc)) (hC ++ pc)
    else opaquePath sc ('/' :: '/' :: (hC ++ pc))) = _
  rw [if_pos (by decide)]
  have t6 : parsePort ([] : List Char) = some none := rfl
  simp only [parseAuthority, t2, t4, t5, t6, t7, hieh]
  simp

/-! ### Header bookkeeping -/

/-- The headers the success path sends: the filtered copy of the upstream
headers followed by the two overrides, exactly as the handler builds them. -/
def relayHeaders (H : List (String × String)) : List (String × String) :=
  setHeader (setHeader (copyUpstreamHeaders [] H) "X-Frame-Options" "")
    "Content-Security-Policy" cspOverrideValue

theorem setHeader_mem_self (hs : List (String × String)) (k v : String) :
    (k, v) ∈ setHeader hs k v := by
  unfold setHeader
  exact List.mem_append_right _ (List.mem_singleton.mpr rfl)

theorem setHeader_mem_of {hs : List (String × String)} {k v : String} (k2 v2 : String)
    (h : (k, v) ∈ hs) (hne : lowerStr k ≠ lowerStr k2) :
    (k, v) ∈ setHeader hs k2 v2 := by
  unfold setHeader
  refine List.mem_append_left _ (List.mem_filter.mpr ⟨h, ?_⟩)
  simpa using hne

theorem setHeader_mem_cases {hs : List (String × String)} {k2 v2 : String}
    {kv : String × String} (h : kv ∈ setHeader hs k2 v2) :
    (kv ∈ hs ∧ lowerStr kv.1 ≠ lowerStr k2) ∨ kv = (k2, v2) := by
  unfold setHeader at h
  rcases List.mem_append.mp h with h1 | h1
  · have h2 := List.mem_filter.mp h1
    exact Or.inl ⟨h2.1, by simpa using h2.2⟩
  · exact Or.inr (by simpa using h1)

theorem copyUpstreamHeaders_preserve (t : List (String × String)) :
    ∀ init k v, (k, v) ∈ init → (∀ p ∈ t, lowerStr p.1 ≠ lowerStr k) →
      (k, v) ∈ copyUpstreamHeaders init t := by
  induction t with
  | nil =>
    intro init k v h _
    simpa [copyUpstreamHeaders] using h
  | cons x xs ih =>
    intro init k v h hne
    have hstep : copyUpstreamHeaders init (x :: xs) = copyUpstreamHeaders
        (if FRAME_STRIP.contains (lowerStr x.1) = true then init
         else setHeader init x.1 x.2) xs := rfl
    rw [hstep]
    apply ih
    · by_cases hx : FRAME_STRIP.contains (lowerStr x.1) = true
      · rw [if_pos hx]
        exact h
      · rw [if_neg hx]
        exact setHeader_mem_of x.1 x.2 h
          (fun he => (hne x (List.mem_cons_self x xs)) he.symm)
    · exact fun p hp => hne p (List.mem_cons_of_mem x hp)

theorem copyUpstreamHeaders_mem (H : List (String × String)) :
    ∀ init kv, kv ∈ H → FRAME_STRIP.contains (lowerStr kv.1) = false →
      (H.map fun p => lowerStr p.1).Nodup → kv ∈ copyUpstreamHeaders init H := by
  induction H with
  | nil =>
    intro init kv h
    cases h
  | cons x xs ih =>
    intro init kv hmem hstrip hnd
    rw [List.map_cons, List.nodup_cons] at hnd
    have hstep : copyUpstreamHeaders init (x :: xs) = copyUpstreamHeaders
        (if FRAME_STRIP.contains (lowerStr x.1) = true then init
         else setHeader init x.1 x.2) xs := rfl
    rw [hstep]
    rcases List.mem_cons.mp hmem with rfl | h2
    · rw [if_neg (by rw [hstrip]; exact Bool.false_ne_true)]
      have hself : (kv.1, kv.2) ∈ setHeader init kv.1 kv.2 := setHeader_mem_self init kv.1 kv.2
      have hrest : ∀ p ∈ xs, lowerStr p.1 ≠ lowerStr kv.1 := by
        intro p hp he
        exact hnd.1 (he ▸ List.mem_map_of_mem (fun q => lowerStr q.1) hp)
      have hpres := copyUpstreamHeaders_preserve xs (setHeader init kv.1 kv.2) kv.1 kv.2 hself hrest
      simpa using hpres
    · exact ih _ kv h2 hstrip hnd.2

theorem frame_strip_not {x : String} (h : FRAME_STRIP.contains x = false) :
    x ≠ "x-frame-options" ∧ x ≠ "content-security-policy" := by
  constructor
  · rintro rfl
    exact absurd h (by decide)
  · rintro rfl
    exact absurd h (by decide)

theorem relayHeaders_mem {H : List (String × String)} {kv : String × String}
    (hmem : kv ∈ H) (hstrip : FRAME_STRIP.contains (lowerStr kv.1) = false)
    (hnd : (H.map fun p => lowerStr p.1).Nodup) :
    kv ∈ relayHeaders H := by
  have h1 : (kv.1, kv.2) ∈ copyUpstreamHeaders [] H := by
    have := copyUpstreamHeaders_mem H [] kv hmem hstrip hnd
    simpa using this
  have hns := frame_strip_not hstrip
  have hx : lowerStr kv.1 ≠ lowerStr "X-Frame-Options" := by
    rw [show lowerStr "X-Frame-Options" = "x-frame-options" from by decide]
    exact hns.1
  have hc : lowerStr kv.1 ≠ lowerStr "Content-Security-Policy" := by
    rw [show lowerStr "Content-Security-Policy" = "content-security-policy" from by decide]
    exact hns.2
  have h2 := setHeader_mem_of "X-Frame-Options" "" h1 hx
  have h3 := setHeader_mem_of "Content-Security-Policy" cspOverrideValue h2 hc
  simpa [relayHeaders] using h3

theorem relayHeaders_overrides (H : List (String × String)) :
    ("X-Frame-Options", "") ∈ relayHeaders H ∧
      ("Content-Security-Policy", cspOverrideValue) ∈ relayHeaders H := by
  constructor
  · exact setHeader_mem_of "Content-Security-Policy" cspOverrideValue
      (setHeader_mem_self _ "X-Frame-Options" "") (by decide)
  · exact setHeader_mem_self _ "Content-Security-Policy" cspOverrideValue

theorem relayHeaders_unique (H : List (String × String)) :
    ∀ kv ∈ relayHeaders H,
      (lowerStr kv.1 = "x-frame-options" → kv = ("X-Frame-Options", "")) ∧
      (lowerStr kv.1 = "content-security-policy" →
        kv = ("Content-Security-Policy", cspOverrideValue)) := by
  intro kv hmem
  rcases setHeader_mem_cases hmem with ⟨h1, hne1⟩ | rfl
  · rcases setHeader_mem_cases h1 with ⟨_, hne2⟩ | rfl
    · constructor
      · intro hl
        rw [show lowerStr "X-Frame-Options" = "x-frame-options" from by decide] at hne2
        exact absurd hl hne2
      · intro hl
        rw [show lowerStr "Content-Security-Policy" = "content-security-policy" from by decide] at hne1
        exact absurd hl hne1
    · constructor
      · intro _
        rfl
      · intro hl
        exact absurd hl (by decide)
  · constructor
    · intro hl
      exact absurd hl (by decide)
    · intro _
      rfl

/-! ### Unfolding the handler along its branches -/

theorem ne_empty_of_parse {s : String} {u : URLObj} (h : newURL s = some u) : s ≠ "" := by
  rintro rfl
  rw [show newURL "" = none from rfl] at h
  cases h

theorem proxyHandler_parse_none (s : String) (f : Fetcher)
    (hs : s ≠ "") (hparse : newURL s = none) :
    proxyHandler (some (QueryVal.str s)) f =
      { status := 500, headers := [], body := "Proxy error",
        fetches := [], hostChecks := [], loggedError := true } := by
  have hs2 : (s == "") = false := beq_eq_false_iff_ne.mpr hs
  simp [proxyHandler, jsMissingUrl, QueryVal.isTruthy, QueryVal.isStringVal, hs2, hparse]

theorem proxyHandler_forbidden (s : String) (u : URLObj) (f : Fetcher)
    (hparse : newURL s = some u) (hal : ALLOWLIST.contains u.hostname = false) :
    proxyHandler (some (QueryVal.str s)) f =
      { status := 403, headers := [], body := "Domain not allowed",
        fetches := [], hostChecks := [u.hostname], loggedError := false } := by
  have hs2 : (s == "") = false := beq_eq_false_iff_ne.mpr (ne_empty_of_parse hparse)
  have hnm : u.hostname ∉ ALLOWLIST := by simpa using hal
  simp [proxyHandler, jsMissingUrl, QueryVal.isTruthy, QueryVal.isStringVal, hs2, hparse, hnm]

theorem proxyHandler_netErr (s : String) (u : URLObj) (f : Fetcher)
    (hparse : newURL s = some u) (hal : ALLOWLIST.contains u.hostname = true)
    (hfetch : f s RedirectMode.follow = FetchOutcome.networkError) :
    proxyHandler (some (QueryVal.str s)) f =
      { status := 500, headers := [], body := "Proxy error",
        fetches := [(s, RedirectMode.follow)], hostChecks := [u.hostname],
        loggedError := true } := by
  have hs2 : (s == "") = false := beq_eq_false_iff_ne.mpr (ne_empty_of_parse hparse)
  have hmem : u.hostname ∈ ALLOWLIST := by simpa using hal
  simp [proxyHandler, jsMissingUrl, QueryVal.isTruthy, QueryVal.isStringVal, hs2, hparse, hmem,
    hfetch]

theorem proxyHandler_ok_body (s : String) (u : URLObj) (f : Fetcher)
    (up : UpstreamResponse) (b : String)
    (hparse : newURL s = some u) (hal : ALLOWLIST.contains u.hostname = true)
    (hfetch : f s RedirectMode.follow = FetchOutcome.ok up) (hbody : up.body = some b) :
    proxyHandler (some (QueryVal.str s)) f =
      { status := up.status, headers := relayHeaders up.headers, body := b,
        fetches := [(s, RedirectMode.follow)], hostChecks := [u.hostname],
        loggedError := false } := by
  have hs2 : (s == "") = false := beq_eq_false_iff_ne.mpr (ne_empty_of_parse hparse)
  have hmem : u.hostname ∈ ALLOWLIST := by simpa using hal
  simp [proxyHandler, jsMissingUrl, QueryVal.isTruthy, QueryVal.isStringVal, hs2, hparse, hmem,
    hfetch, hbody, relayHeaders]

theorem proxyHandler_ok_nobody (s : String) (u : URLObj) (f : Fetcher)
    (up : UpstreamResponse)
    (hparse : newURL s = some u) (hal : ALLOWLIST.contains u.hostname = true)
    (hfetch : f s RedirectMode.follow = FetchOutcome.ok up) (hbody : up.body = none) :
    proxyHandler (some (QueryVal.str s)) f =
      { status := 500, headers := relayHeaders up.headers, body := "Proxy error",
        fetches := [(s, RedirectMode.follow)], hostChecks := [u.hostname],
        loggedError := true } := by
  have hs2 : (s == "") = false := beq_eq_false_iff_ne.mpr (ne_empty_of_parse hparse)
  have hmem : u.hostname ∈ ALLOWLIST := by simpa using hal
  simp [proxyHandler, jsMissingUrl, QueryVal.isTruthy, QueryVal.isStringVal, hs2, hparse, hmem,
    hfetch, hbody, relayHeaders]

theorem proxyHandler_missing (q : Option QueryVal) (f : Fetcher)
    (h : jsMissingUrl q = true) :
    proxyHandler q f =
      { status := 400, headers := [], body := "Missing url param",
        fetches := [], hostChecks := [], loggedError := false } := by
  simp [proxyHandler, h]

theorem proxyHandler_fetch_trace (s : String) (u : URLObj) (f : Fetcher)
    (hparse : newURL s = some u) (hal : ALLOWLIST.contains u.hostname = true) :
    (proxyHandler (some (QueryVal.str s)) f).fetches = [(s, RedirectMode.follow)] ∧
      (proxyHandler (some (QueryVal.str s)) f).hostChecks = [u.hostname] := by
  cases hf : f s RedirectMode.follow with
  | networkError =>
    rw [proxyHandler_netErr s u f hparse hal hf]
    exact ⟨rfl, rfl⟩
  | ok up =>
    cases hb : up.body with
    | none =>
      rw [proxyHandler_ok_nobody s u f up hparse hal hf hb]
      exact ⟨rfl, rfl⟩
    | some b =>
      rw [proxyHandler_ok_body s u f up b hparse hal hf hb]
      exact ⟨rfl, rfl⟩

/-! ### Lifting character classes through ASCII lowercasing -/

theorem alpha_of_lower {c : Char} (h : isAsciiAlphaCode (Char.toLower c).toNat = true) :
    isAsciiAlphaCode c.toNat = true := by
  rcases toLower_cases c with ⟨h1, h2⟩ | he
  · simp only [isAsciiAlphaCode, Bool.or_eq_true, Bool.and_eq_true, decide_eq_true_eq]
    omega
  · rwa [he] at h

theorem schemeChar_of_lower {c : Char} (h : isSchemeChar (Char.toLower c) = true) :
    isSchemeChar c = true := by
  rcases toLower_cases c with ⟨h1, h2⟩ | he
  · simp only [isSchemeChar, isAsciiAlphaCode, isDigitCode, Bool.or_eq_true, Bool.and_eq_true,
      decide_eq_true_eq, beq_iff_eq]
    omega
  · rwa [he] at h

theorem validScheme_of_lower {l m : List Char} (hm : lowerChars l = m)
    (hv : validScheme m = true) : validScheme l = true := by
  cases l with
  | nil =>
    subst hm
    simp [lowerChars, validScheme] at hv
  | cons c cs =>
    subst hm
    simp only [lowerChars, List.map_cons, validScheme, Bool.and_eq_true, List.all_eq_true] at hv
    simp only [validScheme, Bool.and_eq_true, List.all_eq_true]
    refine ⟨alpha_of_lower hv.1, ?_⟩
    intro d hd
    exact schemeChar_of_lower (hv.2 (Char.toLower d) (List.mem_map_of_mem Char.toLower hd))

theorem plainHost_of_lower {hcC : List Char} {h : String}
    (hhc : lowerChars hcC = h.toList)
    (hH : ∀ d ∈ h.toList, plainHostChar d) :
    ∀ c ∈ hcC, plainHostChar c := by
  intro c hc
  rcases toLower_cases c with ⟨h1, h2⟩ | he
  · exact upperRange_hostChar h1 h2
  · have : Char.toLower c ∈ h.toList := hhc ▸ List.mem_map_of_mem Char.toLower hc
    rw [he] at this
    exact hH c this

/-! ### Concrete environments used by the witnesses -/

/-- A sample upstream response: a normal header plus both frame-blocking
headers, a redirect chain through a host that is NOT allow-listed, and a
successfully read body. -/
def upDemo : UpstreamResponse :=
  { status := 200,
    headers := [("Content-Type", "text/html"), ("X-Frame-Options", "DENY"),
                ("Content-Security-Policy", "frame-ancestors none")],
    redirectChain := ["https://evil.example.com/landing"],
    body := some "ok" }

/-- A fetch environment that always answers with `upDemo`. -/
def fetchDemo : Fetcher :=
  fun _ _ => FetchOutcome.ok upDemo

/-! ### The claims -/

/-- C1: for every GET /proxy request whose url query parameter parses as an
absolute URL but whose hostname is not allow-listed, the handler answers 403
with body Domain not allowed, and the configured allow-list is exactly the
four demo hostnames. -/
theorem c1_forbidden_host (s : String) (u : URLObj) (f : Fetcher)
    (hparse : newURL s = some u)
    (hal : ALLOWLIST.contains u.hostname = false) :
    (proxyHandler (some (QueryVal.str s)) f).status = 403 ∧
    (proxyHandler (some (QueryVal.str s)) f).body = "Domain not allowed" ∧
    ALLOWLIST = ["testphp.vulnweb.com", "juice-shop.herokuapp.com",
                 "juice-shop.github.io", "badssl.com"] := by
  rw [proxyHandler_forbidden s u f hparse hal]
  exact ⟨rfl, rfl, rfl⟩

/-- Witness for C1 at the concrete input url=https://evil.example.com/. -/
theorem c1_forbidden_host_witness :
    newURL "https://evil.example.com/" =
      some { scheme := "https", username := "", hostname := "evil.example.com",
             port := none, pathAndQuery := "/" } ∧
    ALLOWLIST.contains "evil.example.com" = false ∧
    ((proxyHandler (some (QueryVal.str "https://evil.example.com/")) fetchNone).status = 403 ∧
     (proxyHandler (some (QueryVal.str "https://evil.example.com/")) fetchNone).body
        = "Domain not allowed" ∧
     ALLOWLIST = ["testphp.vulnweb.com", "juice-shop.herokuapp.com",
                  "juice-shop.github.io", "badssl.com"]) :=
  ⟨by decide, by decide,
   c1_forbidden_host "https://evil.example.com/"
     { scheme := "https", username := "", hostname := "evil.example.com",
       port := none, pathAndQuery := "/" }
     fetchNone (by decide) (by decide)⟩

/-- C2: for every allow-listed request whose fetch succeeds with status S and
header map H, the relayed status is S, and every header of H whose lowercase
name is neither x-frame-options nor content-security-policy appears unchanged
in the relayed headers.  H is a header map, so its lowercased names are
pairwise distinct. -/
theorem c2_header_relay (s : String) (u : URLObj) (f : Fetcher)
    (up : UpstreamResponse) (b : String)
    (hparse : newURL s = some u)
    (hal : ALLOWLIST.contains u.hostname = true)
    (hfetch : f s RedirectMode.follow = FetchOutcome.ok up)
    (hbody : up.body = some b)
    (hnd : (up.headers.map fun p => lowerStr p.1).Nodup) :
    (proxyHandler (some (QueryVal.str s)) f).status = up.status ∧
    ∀ kv ∈ up.headers, FRAME_STRIP.contains (lowerStr kv.1) = false →
      kv ∈ (proxyHandler (some (QueryVal.str s)) f).headers := by
  rw [proxyHandler_ok_body s u f up b hparse hal hfetch hbody]
  exact ⟨rfl, fun kv hm hst => relayHeaders_mem hm hst hnd⟩

/-- Witness for C2 at url=https://badssl.com/ with the `upDemo` upstream. -/
theorem c2_header_relay_witness :
    newURL "https://badssl.com/" =
      some { scheme := "https", username := "", hostname := "badssl.com",
             port := none, pathAndQuery := "/" } ∧
    ALLOWLIST.contains "badssl.com" = true ∧
    fetchDemo "https://badssl.com/" RedirectMode.follow = FetchOutcome.ok upDemo ∧
    upDemo.body = some "ok" ∧
    (upDemo.headers.map fun p => lowerStr p.1).Nodup ∧
    ((proxyHandler (some (QueryVal.str "https://badssl.com/")) fetchDemo).status
        = upDemo.status ∧
     ∀ kv ∈ upDemo.headers, FRAME_STRIP.contains (lowerStr kv.1) = false →
       kv ∈ (proxyHandler (some (QueryVal.str "https://badssl.com/")) fetchDemo).headers) :=
  ⟨by decide, by decide, rfl, rfl, by decide,
   c2_header_relay "https://badssl.com/"
     { scheme := "https", username := "", hostname := "badssl.com",
       port := none, pathAndQuery := "/" }
     fetchDemo upDemo "ok" (by decide) (by decide) rfl rfl (by decide)⟩

/-- C3: every relayed upstream response carries X-Frame-Options with the empty
value and Content-Security-Policy with the permissive frame-ancestors value,
and no relayed header with either of those lowercase names carries any other
value, whatever the upstream sent. -/
theorem c3_frame_override (s : String) (u : URLObj) (f : Fetcher)
    (up : UpstreamResponse) (b : String)
    (hparse : newURL s = some u)
    (hal : ALLOWLIST.contains u.hostname = true)
    (hfetch : f s RedirectMode.follow = FetchOutcome.ok up)
    (hbody : up.body = some b) :
    ("X-Frame-Options", "") ∈ (proxyHandler (some (QueryVal.str s)) f).headers ∧
    ("Content-Security-Policy", cspOverrideValue)
        ∈ (proxyHandler (some (QueryVal.str s)) f).headers ∧
    ∀ kv ∈ (proxyHandler (some (QueryVal.str s)) f).headers,
      (lowerStr kv.1 = "x-frame-options" → kv = ("X-Frame-Options", "")) ∧
      (lowerStr kv.1 = "content-security-policy" →
        kv = ("Content-Security-Policy", cspOverrideValue)) := by
  rw [proxyHandler_ok_body s u f up b hparse hal hfetch hbody]
  exact ⟨(relayHeaders_overrides up.headers).1, (relayHeaders_overrides up.headers).2,
    relayHeaders_unique up.headers⟩

/-- Witness for C3: the `upDemo` upstream sends its own restrictive
X-Frame-Options and Content-Security-Policy, and the relay still pins both. -/
theorem c3_frame_override_witness :
    newURL "https://badssl.com/" =
      some { scheme := "https", username := "", hostname := "badssl.com",
             port := none, pathAndQuery := "/" } ∧
    ALLOWLIST.contains "badssl.com" = true ∧
    fetchDemo "https://badssl.com/" RedirectMode.follow = FetchOutcome.ok upDemo ∧
    upDemo.body = some "ok" ∧
    (("X-Frame-Options", "")
        ∈ (proxyHandler (some (QueryVal.str "https://badssl.com/")) fetchDemo).headers ∧
     ("Content-Security-Policy", cspOverrideValue)
        ∈ (proxyHandler (some (QueryVal.str "https://badssl.com/")) fetchDemo).headers ∧
     ∀ kv ∈ (proxyHandler (some (QueryVal.str "https://badssl.com/")) fetchDemo).headers,
       (lowerStr kv.1 = "x-frame-options" → kv = ("X-Frame-Options", "")) ∧
       (lowerStr kv.1 = "content-security-policy" →
         kv = ("Content-Security-Policy", cspOverrideValue))) :=
  ⟨by decide, by decide, rfl, rfl,
   c3_frame_override "https://badssl.com/"
     { scheme := "https", username := "", hostname := "badssl.com",
       port := none, pathAndQuery := "/" }
     fetchDemo upDemo "ok" (by decide) (by decide) rfl rfl⟩

/-- C4: a request whose url parameter is absent or not a string is answered
400 with body Missing url param, with no URL parse, no host check, no fetch
and no header manipulation; the result does not depend on the fetch
environment. -/
theorem c4_missing_param (q : Option QueryVal) (f : Fetcher)
    (h : q = none ∨ ∃ v, q = some v ∧ v.isStringVal = false) :
    proxyHandler q f =
      { status := 400, headers := [], body := "Missing url param",
        fetches := [], hostChecks := [], loggedError := false } := by
  apply proxyHandler_missing
  rcases h with rfl | ⟨v, rfl, hv⟩
  · rfl
  · simp [jsMissingUrl, hv]

/-- Witness for C4 at the concrete non-string value `QueryVal.obj`. -/
theorem c4_missing_param_witness :
    ((some QueryVal.obj = none) ∨
      ∃ v, some QueryVal.obj = some v ∧ v.isStringVal = false) ∧
    proxyHandler (some QueryVal.obj) fetchNone =
      { status := 400, headers := [], body := "Missing url param",
        fetches := [], hostChecks := [], loggedError := false } :=
  ⟨Or.inr ⟨QueryVal.obj, rfl, rfl⟩,
   c4_missing_param (some QueryVal.obj) fetchNone (Or.inr ⟨QueryVal.obj, rfl, rfl⟩)⟩

/-- C5 counterexample: the claim says a present but unparseable url yields a
BadRequest with a 400 status, but on the concrete input url=not-a-url the
handler answers 500 with body Proxy error, because the URL constructor throw
lands in the generic catch block. -/
theorem c5_counterexample :
    newURL "not-a-url" = none ∧
    (proxyHandler (some (QueryVal.str "not-a-url")) fetchNone).status = 500 ∧
    ¬ ((proxyHandler (some (QueryVal.str "not-a-url")) fetchNone).status = 400) ∧
    (proxyHandler (some (QueryVal.str "not-a-url")) fetchNone).body = "Proxy error" := by
  exact ⟨by decide, by decide, by decide, by decide⟩

/-- C5 as amended: a present, nonempty, but unparseable url makes the
operation fail and the caller receives a 500 status with body Proxy error
(the parse failure is handled by the generic catch block, not as a 400). -/
theorem c5_amended_parse_failure (s : String) (f : Fetcher)
    (hs : s ≠ "") (hparse : newURL s = none) :
    (proxyHandler (some (QueryVal.str s)) f).status = 500 ∧
    (proxyHandler (some (QueryVal.str s)) f).body = "Proxy error" ∧
    (proxyHandler (some (QueryVal.str s)) f).loggedError = true := by
  rw [proxyHandler_parse_none s f hs hparse]
  exact ⟨rfl, rfl, rfl⟩

/-- Witness for the amended C5 at url=not-a-url. -/
theorem c5_amended_parse_failure_witness :
    "not-a-url" ≠ "" ∧
    newURL "not-a-url" = none ∧
    ((proxyHandler (some (QueryVal.str "not-a-url")) fetchNone).status = 500 ∧
     (proxyHandler (some (QueryVal.str "not-a-url")) fetchNone).body = "Proxy error" ∧
     (proxyHandler (some (QueryVal.str "not-a-url")) fetchNone).loggedError = true) :=
  ⟨by decide, by decide,
   c5_amended_parse_failure "not-a-url" fetchNone (by decide) (by decide)⟩

/-- C6: every exception the handler can raise, namely a URL parse failure, a
rejected fetch, or a rejected body read, yields status 500 with the fixed
body Proxy error, logs the error, and issues at most one outbound fetch (no
retry).  The handler is a total function of the request and the fetch
environment, so no exception escapes the request boundary. -/
theorem c6_exception_to_500 (q : Option QueryVal) (f : Fetcher)
    (h : ∃ s, q = some (QueryVal.str s) ∧ s ≠ "" ∧
      (newURL s = none ∨
       ∃ u, newURL s = some u ∧ ALLOWLIST.contains u.hostname = true ∧
         (f s RedirectMode.follow = FetchOutcome.networkError ∨
          ∃ up, f s RedirectMode.follow = FetchOutcome.ok up ∧ up.body = none))) :
    (proxyHandler q f).status = 500 ∧
    (proxyHandler q f).body = "Proxy error" ∧
    (proxyHandler q f).loggedError = true ∧
    (proxyHandler q f).fetches.length ≤ 1 := by
  obtain ⟨s, rfl, hs, hcase⟩ := h
  rcases hcase with hnone | ⟨u, hparse, hal, hf⟩
  · rw [proxyHandler_parse_none s f hs hnone]
    exact ⟨rfl, rfl, rfl, by simp⟩
  · rcases hf with hne | ⟨up, hok, hb⟩
    · rw [proxyHandler_netErr s u f hparse hal hne]
      exact ⟨rfl, rfl, rfl, by simp⟩
    · rw [proxyHandler_ok_nobody s u f up hparse hal hok hb]
      exact ⟨rfl, rfl, rfl, by simp⟩

/-- Witness for C6: an allow-listed URL whose fetch fails with a network
error. -/
theorem c6_exception_to_500_witness :
    (∃ s, (some (QueryVal.str "https://badssl.com/") : Option QueryVal)
          = some (QueryVal.str s) ∧ s ≠ "" ∧
      (newURL s = none ∨
       ∃ u, newURL s = some u ∧ ALLOWLIST.contains u.hostname = true ∧
         (fetchNone s RedirectMode.follow = FetchOutcome.networkError ∨
          ∃ up, fetchNone s RedirectMode.follow = FetchOutcome.ok up ∧ up.body = none))) ∧
    ((proxyHandler (some (QueryVal.str "https://badssl.com/")) fetchNone).status = 500 ∧
     (proxyHandler (some (QueryVal.str "https://badssl.com/")) fetchNone).body = "Proxy error" ∧
     (proxyHandler (some (QueryVal.str "https://badssl.com/")) fetchNone).loggedError = true ∧
     (proxyHandler (some (QueryVal.str "https://badssl.com/")) fetchNone).fetches.length ≤ 1) :=
  ⟨⟨"https://badssl.com/", rfl, by decide,
    Or.inr ⟨{ scheme := "https", username := "", hostname := "badssl.com",
              port := none, pathAndQuery := "/" },
      by decide, by decide, Or.inl rfl⟩⟩,
   c6_exception_to_500 (some (QueryVal.str "https://badssl.com/")) fetchNone
     ⟨"https://badssl.com/", rfl, by decide,
      Or.inr ⟨{ scheme := "https", username := "", hostname := "badssl.com",
                port := none, pathAndQuery := "/" },
        by decide, by decide, Or.inl rfl⟩⟩⟩

/-- C7: for every allow-listed request whose fetch succeeds, exactly one
outbound fetch is issued, for the caller-supplied URL in redirect-following
mode, and the hostname is tested against the allow-list exactly once, on the
caller-supplied URL; the conclusion holds for every redirect chain of the
upstream response, so redirected hosts are never re-validated. -/
theorem c7_redirect_follow_no_revalidation (s : String) (u : URLObj) (f : Fetcher)
    (up : UpstreamResponse) (b : String)
    (hparse : newURL s = some u)
    (hal : ALLOWLIST.contains u.hostname = true)
    (hfetch : f s RedirectMode.follow = FetchOutcome.ok up)
    (hbody : up.body = some b) :
    (proxyHandler (some (QueryVal.str s)) f).fetches = [(s, RedirectMode.follow)] ∧
    (proxyHandler (some (QueryVal.str s)) f).hostChecks = [u.hostname] ∧
    (proxyHandler (some (QueryVal.str s)) f).status = up.status := by
  rw [proxyHandler_ok_body s u f up b hparse hal hfetch hbody]
  exact ⟨rfl, rfl, rfl⟩

/-- Witness for C7: the `upDemo` redirect chain passes through the
non-allow-listed host evil.example.com, and the response is still relayed
with a single follow-mode fetch and a single host check. -/
theorem c7_redirect_follow_no_revalidation_witness :
    newURL "https://badssl.com/" =
      some { scheme := "https", username := "", hostname := "badssl.com",
             port := none, pathAndQuery := "/" } ∧
    ALLOWLIST.contains "badssl.com" = true ∧
    fetchDemo "https://badssl.com/" RedirectMode.follow = FetchOutcome.ok upDemo ∧
    upDemo.body = some "ok" ∧
    upDemo.redirectChain = ["https://evil.example.com/landing"] ∧
    ((proxyHandler (some (QueryVal.str "https://badssl.com/")) fetchDemo).fetches
        = [("https://badssl.com/", RedirectMode.follow)] ∧
     (proxyHandler (some (QueryVal.str "https://badssl.com/")) fetchDemo).hostChecks
        = ["badssl.com"] ∧
     (proxyHandler (some (QueryVal.str "https://badssl.com/")) fetchDemo).status
        = upDemo.status) :=
  ⟨by decide, by decide, rfl, rfl, rfl,
   c7_redirect_follow_no_revalidation "https://badssl.com/"
     { scheme := "https", username := "", hostname := "badssl.com",
       port := none, pathAndQuery := "/" }
     fetchDemo upDemo "ok" (by decide) (by decide) rfl rfl⟩

/-- C8: a request rejected by the missing-parameter branch (400) or by the
allow-list branch (403) performs no outbound fetch and sends no headers, in
particular not the frame-header overrides: both rejection branches return
before the network call and before any header manipulation. -/
theorem c8_reject_before_effects (q : Option QueryVal) (f : Fetcher)
    (h : jsMissingUrl q = true ∨
      ∃ s u, q = some (QueryVal.str s) ∧ newURL s = some u ∧
        ALLOWLIST.contains u.hostname = false) :
    (proxyHandler q f).fetches = [] ∧
    (proxyHandler q f).headers = [] ∧
    ((proxyHandler q f).status = 400 ∨ (proxyHandler q f).status = 403) := by
  rcases h with hm | ⟨s, u, rfl, hparse, hal⟩
  · rw [proxyHandler_missing q f hm]
    exact ⟨rfl, rfl, Or.inl rfl⟩
  · rw [proxyHandler_forbidden s u f hparse hal]
    exact ⟨rfl, rfl, Or.inr rfl⟩

/-- Witness for C8 at the rejected input url=https://evil.example.com/. -/
theorem c8_reject_before_effects_witness :
    (jsMissingUrl (some (QueryVal.str "https://evil.example.com/")) = true ∨
      ∃ s u, (some (QueryVal.str "https://evil.example.com/") : Option QueryVal)
          = some (QueryVal.str s) ∧ newURL s = some u ∧
        ALLOWLIST.contains u.hostname = false) ∧
    ((proxyHandler (some (QueryVal.str "https://evil.example.com/")) fetchDemo).fetches = [] ∧
     (proxyHandler (some (QueryVal.str "https://evil.example.com/")) fetchDemo).headers = [] ∧
     ((proxyHandler (some (QueryVal.str "https://evil.example.com/")) fetchDemo).status = 400 ∨
      (proxyHandler (some (QueryVal.str "https://evil.example.com/")) fetchDemo).status = 403)) :=
  ⟨Or.inr ⟨"https://evil.example.com/",
     { scheme := "https", username := "", hostname := "evil.example.com",
       port := none, pathAndQuery := "/" }, rfl, by decide, by decide⟩,
   c8_reject_before_effects (some (QueryVal.str "https://evil.example.com/")) fetchDemo
     (Or.inr ⟨"https://evil.example.com/",
       { scheme := "https", username := "", hostname := "evil.example.com",
         port := none, pathAndQuery := "/" }, rfl, by decide, by decide⟩)⟩

theorem c9_core (sc ui ps pc : List Char) (h : String) (f : Fetcher)
    (hsc : validScheme sc = true)
    (hui : ∀ c ∈ ui, isDelim c = false)
    (hpsne : ps ≠ [])
    (hps : ∀ c ∈ ps, isDigitCode c.toNat = true)
    (hport : digitsToNat ps ≤ 65535)
    (hpc : pc = [] ∨ ∃ d t, pc = d :: t ∧ isDelim d = true)
    (hne : h.toList ≠ [])
    (hhc : ∀ c ∈ h.toList, plainHostChar c)
    (hlow : lowerChars h.toList = h.toList)
    (hal : ALLOWLIST.contains h = true) :
    (newURL (String.mk
        (sc ++ ':' :: '/' :: '/' :: (ui ++ '@' :: (h.toList ++ ':' :: (ps ++ pc)))))).map
        URLObj.hostname = some h ∧
    (proxyHandler (some (QueryVal.str (String.mk
        (sc ++ ':' :: '/' :: '/' :: (ui ++ '@' :: (h.toList ++ ':' :: (ps ++ pc))))))) f).fetches
      = [(String.mk (sc ++ ':' :: '/' :: '/' :: (ui ++ '@' :: (h.toList ++ ':' :: (ps ++ pc)))),
          RedirectMode.follow)] ∧
    (proxyHandler (some (QueryVal.str (String.mk
        (sc ++ ':' :: '/' :: '/' :: (ui ++ '@' :: (h.toList ++ ':' :: (ps ++ pc))))))) f).hostChecks
      = [h] := by
  have hb := newURLChars_build sc ui h.toList ps pc hsc hui hne hhc hpsne hps hport hpc
  have hh : String.mk (if specialSchemes.contains (String.mk (lowerChars sc))
      then lowerChars h.toList else h.toList) = h := by
    rw [hlow, ite_self]
    exact mk_toList h
  have hparse : newURL (String.mk
      (sc ++ ':' :: '/' :: '/' :: (ui ++ '@' :: (h.toList ++ ':' :: (ps ++ pc))))) =
      some { scheme := String.mk (lowerChars sc), username := String.mk ui,
             hostname := h, port := some (digitsToNat ps), pathAndQuery := String.mk pc } := by
    show newURLChars (sc ++ ':' :: '/' :: '/' :: (ui ++ '@' :: (h.toList ++ ':' :: (ps ++ pc)))) = _
    rw [hb, hh]
  have htr := proxyHandler_fetch_trace _
    { scheme := String.mk (lowerChars sc), username := String.mk ui,
      hostname := h, port := some (digitsToNat ps), pathAndQuery := String.mk pc }
    f hparse hal
  refine ⟨?_, htr.1, htr.2⟩
  rw [hparse]
  rfl

/-- C9: only the hostname component constrains the allow-list check; for any
allow-listed hostname written as in the allow-list, a URL with any valid
scheme, any userinfo credentials, any explicit port and any path or query
passes the host check and reaches the outbound fetch, and the parsed hostname
is exactly the allow-list entry. -/
theorem c9_hostname_only (sc ui ps pc : List Char) (h : String) (f : Fetcher)
    (hmem : h ∈ ALLOWLIST)
    (hsc : validScheme sc = true)
    (hui : ∀ c ∈ ui, isDelim c = false)
    (hpsne : ps ≠ [])
    (hps : ∀ c ∈ ps, isDigitCode c.toNat = true)
    (hport : digitsToNat ps ≤ 65535)
    (hpc : pc = [] ∨ ∃ d t, pc = d :: t ∧ isDelim d = true) :
    (newURL (String.mk
        (sc ++ ':' :: '/' :: '/' :: (ui ++ '@' :: (h.toList ++ ':' :: (ps ++ pc)))))).map
        URLObj.hostname = some h ∧
    (proxyHandler (some (QueryVal.str (String.mk
        (sc ++ ':' :: '/' :: '/' :: (ui ++ '@' :: (h.toList ++ ':' :: (ps ++ pc))))))) f).fetches
      = [(String.mk (sc ++ ':' :: '/' :: '/' :: (ui ++ '@' :: (h.toList ++ ':' :: (ps ++ pc)))),
          RedirectMode.follow)] ∧
    (proxyHandler (some (QueryVal.str (String.mk
        (sc ++ ':' :: '/' :: '/' :: (ui ++ '@' :: (h.toList ++ ':' :: (ps ++ pc))))))) f).hostChecks
      = [h] := by
  fin_cases hmem <;>
    exact c9_core sc ui ps pc _ f hsc hui hpsne hps hport hpc
      (by decide) (by decide) (by decide) (by decide)

/-- Witness for C9 at the URL ftp://u:pw@badssl.com:8443/x?q=1, with a
non-http scheme, userinfo credentials, an explicit port, a path and a
query. -/
theorem c9_hostname_only_witness :
    "badssl.com" ∈ ALLOWLIST ∧
    validScheme ("ftp".toList) = true ∧
    (∀ c ∈ ("u:pw".toList), isDelim c = false) ∧
    ("8443".toList ≠ []) ∧
    (∀ c ∈ ("8443".toList), isDigitCode c.toNat = true) ∧
    digitsToNat ("8443".toList) ≤ 65535 ∧
    (("/x?q=1".toList = []) ∨
      ∃ d t, "/x?q=1".toList = d :: t ∧ isDelim d = true) ∧
    ((newURL "ftp://u:pw@badssl.com:8443/x?q=1").map URLObj.hostname = some "badssl.com" ∧
     (proxyHandler (some (QueryVal.str "ftp://u:pw@badssl.com:8443/x?q=1")) fetchNone).fetches
        = [("ftp://u:pw@badssl.com:8443/x?q=1", RedirectMode.follow)] ∧
     (proxyHandler (some (QueryVal.str "ftp://u:pw@badssl.com:8443/x?q=1")) fetchNone).hostChecks
        = ["badssl.com"]) :=
  ⟨by decide, by decide, by decide, by decide, by decide, by decide,
   Or.inr ⟨Char.ofNat 47, "x?q=1".toList, by decide, by decide⟩,
   c9_hostname_only ("ftp".toList) ("u:pw".toList) ("8443".toList) ("/x?q=1".toList)
     "badssl.com" fetchNone
     (by decide) (by decide) (by decide) (by decide) (by decide) (by decide)
     (Or.inr ⟨Char.ofNat 47, "x?q=1".toList, by decide, by decide⟩)⟩

theorem c10_core (scC hcC : List Char) (h : String) (f : Fetcher)
    (hsc : lowerChars scC = "https".toList)
    (hhc : lowerChars hcC = h.toList)
    (hH1 : h.toList ≠ [])
    (hH2 : ∀ d ∈ h.toList, plainHostChar d)
    (hal : ALLOWLIST.contains h = true) :
    (newURL (String.mk (scC ++ ':' :: '/' :: '/' :: (hcC ++ ['/'])))).map
        URLObj.hostname = some h ∧
    (proxyHandler (some (QueryVal.str
        (String.mk (scC ++ ':' :: '/' :: '/' :: (hcC ++ ['/']))))) f).fetches
      = [(String.mk (scC ++ ':' :: '/' :: '/' :: (hcC ++ ['/'])), RedirectMode.follow)] ∧
    (proxyHandler (some (QueryVal.str
        (String.mk (scC ++ ':' :: '/' :: '/' :: (hcC ++ ['/']))))) f).hostChecks
      = [h] := by
  have hvs : validScheme scC = true := validScheme_of_lower hsc (by decide)
  have hne : hcC ≠ [] := by
    intro he
    rw [he] at hhc
    exact hH1 hhc.symm
  have hplain : ∀ c ∈ hcC, plainHostChar c := plainHost_of_lower hhc hH2
  have hb := newURLChars_build_noauthinfo scC hcC ['/'] hvs hne hplain
    (Or.inr ⟨Char.ofNat 47, [], rfl, by decide⟩)
  have hspec : specialSchemes.contains (String.mk (lowerChars scC)) = true := by
    rw [hsc]
    decide
  have hh2 : String.mk (if specialSchemes.contains (String.mk (lowerChars scC))
      then lowerChars hcC else hcC) = h := by
    rw [if_pos hspec, hhc]
    exact mk_toList h
  have hparse : newURL (String.mk (scC ++ ':' :: '/' :: '/' :: (hcC ++ ['/']))) =
      some { scheme := String.mk (lowerChars scC), username := "",
             hostname := h, port := none, pathAndQuery := String.mk ['/'] } := by
    show newURLChars (scC ++ ':' :: '/' :: '/' :: (hcC ++ ['/'])) = _
    rw [hb, hh2]
  have htr := proxyHandler_fetch_trace _
    { scheme := String.mk (lowerChars scC), username := "",
      hostname := h, port := none, pathAndQuery := String.mk ['/'] }
    f hparse hal
  refine ⟨?_, htr.1, htr.2⟩
  rw [hparse]
  rfl

/-- C10: host matching is effectively case-insensitive in the caller input:
a URL whose scheme lowercases to https and whose hostname differs from an
allow-list entry only in ASCII letter case passes the host check and is
fetched, because URL parsing lowercases the hostname before the
case-sensitive membership test against the all-lowercase allow-list. -/
theorem c10_case_insensitive_host (scC hcC : List Char) (h : String) (f : Fetcher)
    (hmem : h ∈ ALLOWLIST)
    (hsc : lowerChars scC = "https".toList)
    (hhc : lowerChars hcC = h.toList) :
    (newURL (String.mk (scC ++ ':' :: '/' :: '/' :: (hcC ++ ['/'])))).map
        URLObj.hostname = some h ∧
    (proxyHandler (some (QueryVal.str
        (String.mk (scC ++ ':' :: '/' :: '/' :: (hcC ++ ['/']))))) f).fetches
      = [(String.mk (scC ++ ':' :: '/' :: '/' :: (hcC ++ ['/'])), RedirectMode.follow)] ∧
    (proxyHandler (some (QueryVal.str
        (String.mk (scC ++ ':' :: '/' :: '/' :: (hcC ++ ['/']))))) f).hostChecks
      = [h] := by
  fin_cases hmem <;>
    exact c10_core scC hcC _ f hsc hhc (by decide) (by decide) (by decide)

/-- Witness for C10 at the all-uppercase URL HTTPS://BADSSL.COM/. -/
theorem c10_case_insensitive_host_witness :
    "badssl.com" ∈ ALLOWLIST ∧
    lowerChars ("HTTPS".toList) = "https".toList ∧
    lowerChars ("BADSSL.COM".toList) = "badssl.com".toList ∧
    ((newURL "HTTPS://BADSSL.COM/").map URLObj.hostname = some "badssl.com" ∧
     (proxyHandler (some (QueryVal.str "HTTPS://BADSSL.COM/")) fetchNone).fetches
        = [("HTTPS://BADSSL.COM/", RedirectMode.follow)] ∧
     (proxyHandler (some (QueryVal.str "HTTPS://BADSSL.COM/")) fetchNone).hostChecks
        = ["badssl.com"]) :=
  ⟨by decide, by decide, by decide,
   c10_case_insensitive_host ("HTTPS".toList) ("BADSSL.COM".toList) "badssl.com" fetchNone
     (by decide) (by decide) (by decide)⟩

end Sovap
